import Mathlib

set_option maxRecDepth 10000

/-
  Verification development for the CipherLens anti-phishing core
  (server/models/phishing_detector.py, server/models/explainer.py,
  server/utils/feature_extractor.py).

  Python floats are modelled exactly: all heuristic arithmetic in the source
  is finite rational arithmetic, modelled in ℚ; the only transcendental step
  (the logistic squashing `1 / (1 + exp(...))` in `PhishingDetector.predict`)
  is modelled over ℝ with `Real.exp`.  Feature mappings (Python dicts keyed by
  feature-name strings) are modelled as association lists in insertion order.
-/

/-! ## Scorer: `PhishingDetector` (phishing_detector.py) -/

/-- Table `self.feature_weights` of `PhishingDetector.__init__`, in source order. -/
def feature_weights : List (String × ℚ) :=
  [("hasIPAddress", 95/100), ("urlLength", 5/10), ("hasAtSymbol", 8/10),
   ("hasManySubdomains", 8/10), ("hasSuspiciousTLD", 9/10), ("hasHyphens", 6/10),
   ("hasBrandImpersonation", 95/100), ("hasRedirectPattern", 8/10),
   ("hasDeceptiveHostname", 95/100),
   ("hasPasswordField", 8/10), ("hasSensitiveKeywords", 7/10),
   ("mismatchedFormAction", 95/100), ("hasLoginForm", 7/10),
   ("hasExternalScripts", 7/10), ("hasObfuscatedCode", 85/100),
   ("hasFaviconMismatch", 8/10), ("hasHiddenElements", 8/10),
   ("isNotHttps", 85/100), ("hasCertificateIssues", 9/10),
   ("domainAge", 8/10), ("lowAlexaRank", 7/10)]

/-- Weight lookup `self.feature_weights.get(feature, 0)` in `predict`. -/
def feature_weight (f : String) : ℚ := (feature_weights.lookup f).getD 0

/-- The `critical_features` list inside `predict`. -/
def critical_features : List String :=
  ["hasIPAddress", "hasBrandImpersonation", "mismatchedFormAction",
   "hasDeceptiveHostname", "isNotHttps"]

/-- One loop iteration's `contribution` in `predict`:
`value * weight * 1.5` when the feature is critical and `value > 0.5`,
else `value * weight`. -/
def contribution (f : String) (v : ℚ) : ℚ :=
  if f ∈ critical_features ∧ 1/2 < v then v * feature_weight f * (3/2)
  else v * feature_weight f

/-- The accumulation loop of `predict`: running `(score, total_weight)`
over the feature dict in iteration order. -/
def score_acc (features : List (String × ℚ)) : ℚ × ℚ :=
  features.foldl
    (fun st p => (st.1 + contribution p.1 p.2, st.2 + feature_weight p.1)) (0, 0)

/-- Normalisation step of `predict`:
`score = score / total_weight if total_weight > 0 else 0`. -/
def raw_score (features : List (String × ℚ)) : ℚ :=
  let st := score_acc features
  if 0 < st.2 then st.1 / st.2 else 0

/-- Count `suspicious_count` of `predict`: features with `value > 0.5` whose
weight exceeds `0.7`. -/
def suspicious_count (features : List (String × ℚ)) : ℕ :=
  (features.filter (fun p => decide (1/2 < p.2) && decide (7/10 < feature_weight p.1))).length

inductive ThreatLevel
  | Low
  | Medium
  | High
deriving DecidableEq

open scoped Classical in
/-- Function `PhishingDetector._get_threat_level`. -/
noncomputable def get_threat_level (score : ℝ) : ThreatLevel :=
  if score < 1/4 then .Low else if score < 11/20 then .Medium else .High

/-- The sigmoid step of `predict`:
`score = 1 / (1 + math.exp(-12 * (score - 0.4)))`. -/
noncomputable def sigmoid_score (features : List (String × ℚ)) : ℝ :=
  1 / (1 + Real.exp (-12 * ((raw_score features : ℝ) - 2/5)))

open scoped Classical in
/-- The combination-bonus step of `predict`:
`score = min(score + (suspicious_count - 2) * 0.1, 1.0)` when
`suspicious_count >= 3`. -/
noncomputable def final_score (features : List (String × ℚ)) : ℝ :=
  if 3 ≤ suspicious_count features then
    min (sigmoid_score features + ((suspicious_count features : ℝ) - 2) * (1/10)) 1
  else sigmoid_score features

/-- The fields of the dict returned by `predict` that the specification
constrains (explanations/topFeatures omitted: no claim mentions them). -/
structure Verdict where
  isPhishing : Prop
  score : ℝ
  confidence : ℝ
  threatLevel : ThreatLevel

open scoped Classical in
/-- Function `PhishingDetector.predict`, final result assembly:
`is_phishing = score > 0.45`;
`confidence = min(max(abs(score-0.5)*2, 0.6), 0.99) if is_phishing
              else min(abs(score-0.5)*2, 0.99)`. -/
noncomputable def predict (features : List (String × ℚ)) : Verdict :=
  { isPhishing := 9/20 < final_score features
    score := final_score features
    confidence :=
      if 9/20 < final_score features then
        min (max (|final_score features - 1/2| * 2) (6/10)) (99/100)
      else min (|final_score features - 1/2| * 2) (99/100)
    threatLevel := get_threat_level (final_score features) }

/-! ### Spec-side restatements of the Scorer formulas (from the spec's words,
for refinement claims C1) -/

/-- Modelled from the spec's words: "contribution = value × weight from the
fixed weight table (0 for unknown features), multiplied by 1.5 exactly when
the feature is one of hasIPAddress, hasBrandImpersonation,
mismatchedFormAction, hasDeceptiveHostname, isNotHttps and its value > 0.5". -/
def contribution_spec (f : String) (v : ℚ) : ℚ :=
  (if f ∈ critical_features ∧ 1/2 < v then 3/2 else 1) * (v * feature_weight f)

/-- Modelled from the spec's words: "the raw score is the sum of contributions
divided by the sum of weights of present features (0 when that sum is 0)". -/
def raw_score_spec (features : List (String × ℚ)) : ℚ :=
  if (features.map fun p => feature_weight p.1).sum = 0 then 0
  else (features.map fun p => contribution_spec p.1 p.2).sum
        / (features.map fun p => feature_weight p.1).sum

/-- Modelled from the spec's words: "n the number of present features with
value > 0.5 and weight > 0.7". -/
def suspicious_count_spec (features : List (String × ℚ)) : ℕ :=
  features.countP (fun p => decide (1/2 < p.2) && decide (7/10 < feature_weight p.1))

/-! ## Explainer: `Explainer` (explainer.py) -/

/-- Table `self.feature_descriptions` of `Explainer.__init__`. -/
def feature_descriptions : List (String × String) :=
  [("hasIPAddress", "Use of IP address in URL"),
   ("urlLength", "Unusually long URL"),
   ("hasAtSymbol", "URL contains @ symbol"),
   ("hasManySubdomains", "Multiple subdomains"),
   ("hasSuspiciousTLD", "Suspicious top-level domain"),
   ("hasHyphens", "Multiple hyphens in domain"),
   ("hasPasswordField", "Password input field"),
   ("hasSensitiveKeywords", "Sensitive keywords"),
   ("mismatchedFormAction", "Form submits to different domain"),
   ("isNotHttps", "Non-secure connection"),
   ("hasCertificateIssues", "SSL certificate issues")]

/-- Explanation dict produced per feature by `Explainer.explain_prediction`. -/
structure ExplanationItem where
  feature : String
  description : String
  attribution : ℚ
  value : ℚ
deriving DecidableEq

/-- Function `Explainer.explain_prediction`: attribution = raw value for each
feature with `value > 0`; normalised to percentages of the total (the
normalised dict stays empty unless the total is positive); items built in
iteration order, then sorted descending by attribution (Python's stable
`list.sort` with `reverse=True` = stable merge sort on the flipped order). -/
def explain_prediction (features : List (String × ℚ)) : List ExplanationItem :=
  let attributions := features.filter fun p => decide (0 < p.2)
  let total_attribution : ℚ := (attributions.map Prod.snd).sum
  let normalized_attributions : List (String × ℚ) :=
    if 0 < total_attribution then
      attributions.map (fun p => (p.1, p.2 / total_attribution * 100))
    else []
  let sorted_explanations := normalized_attributions.map fun p =>
    { feature := p.1
      description := (feature_descriptions.lookup p.1).getD p.1
      attribution := p.2
      value := (features.lookup p.1).getD 0 : ExplanationItem }
  sorted_explanations.mergeSort (fun a b => decide (b.attribution ≤ a.attribution))

/-! ## Feature Extractor: `FeatureExtractor` (feature_extractor.py)

String primitives are modelled over `List Char` (ASCII inputs; Python `str`
operations used by the source - substring test, replace, split, lower,
endswith, count - are reimplemented below with Python semantics). -/

/-- Python `pattern` is a prefix of `s` (helper for substring search). -/
def isPre : List Char → List Char → Bool
  | [], _ => true
  | _ :: _, [] => false
  | a :: as, b :: bs => a == b && isPre as bs

/-- Python `pat in s` substring containment. -/
def hasSub (pat : List Char) : List Char → Bool
  | [] => isPre pat []
  | c :: t => isPre pat (c :: t) || hasSub pat t

/-- Python `pat in s` with a string-literal pattern. -/
def sIn (pat : String) (s : List Char) : Bool := hasSub pat.data s

/-- Python `s.endswith(suf)`. -/
def endsW (suf s : List Char) : Bool := isPre suf.reverse s.reverse

/-- Python `s.lower()` (ASCII). -/
def toLowerL (s : List Char) : List Char := s.map Char.toLower

/-- Python `s.count(c)` for a single-character argument. -/
def countC (c : Char) (s : List Char) : Nat := s.count c

/-- Python `s.split(sep)` as a predicate split (empty parts kept); with a
one-character class this is also `re.split(r'[..]', s)`. -/
def splitP (p : Char → Bool) : List Char → List (List Char)
  | [] => [[]]
  | a :: t =>
    let r := splitP p t
    if p a then [] :: r else (a :: r.headI) :: r.tail

/-- Python `s.split(c)` on one separator character. -/
def splitC (c : Char) (s : List Char) : List (List Char) := splitP (fun a => a == c) s

/-- Python `sep.join(parts)` for a one-character separator. -/
def joinC (c : Char) (ps : List (List Char)) : List Char := List.intercalate [c] ps

/-- Fuel-driven worker for `replaceAll` (fuel = length of the subject,
enough for any nonempty `old`). -/
def replaceAllF : Nat → List Char → List Char → List Char → List Char
  | 0, _, _, s => s
  | _ + 1, _, _, [] => []
  | f + 1, old, new, c :: t =>
    if isPre old (c :: t) then new ++ replaceAllF f old new ((c :: t).drop old.length)
    else c :: replaceAllF f old new t

/-- Python `s.replace(old, new)` (all non-overlapping occurrences, left to
right; the source only ever uses nonempty `old`). -/
def replaceAll (old new s : List Char) : List Char := replaceAllF s.length old new s

/-- List `self.suspicious_tlds` of `FeatureExtractor.__init__`. -/
def fe_suspicious_tlds : List String :=
  [".xyz", ".top", ".gq", ".ml", ".ga", ".cf", ".tk", ".info",
   ".work", ".pro", ".men", ".loan", ".click", ".date", ".racing",
   ".online", ".stream", ".win", ".review", ".vip", ".party", ".shop",
   ".gdn", ".bid", ".accountant", ".website", ".space"]

/-- List `self.popular_brands` of `FeatureExtractor.__init__`. -/
def fe_popular_brands : List String :=
  ["paypal", "apple", "microsoft", "amazon", "netflix", "facebook",
   "google", "instagram", "twitter", "gmail", "wellsfargo", "chase",
   "bankofamerica", "bank", "coinbase", "blockchain", "linkedin",
   "dropbox", "yahoo", "instagram", "spotify", "steam", "github",
   "outlook", "hotmail", "netflix", "office365", "protonmail"]

/-- Table `self.tld_substitutions` of `FeatureExtractor.__init__`. -/
def tld_substitutions : List (String × List String) :=
  [(".com", [".cm", ".co", ".om", ".commm", ".comm", ".com-secure", ".con"]),
   (".org", [".ogr", ".or", ".arg", ".orgg"]),
   (".net", [".ner", ".ne", ".nt", ".nett"]),
   (".edu", [".ed", ".eu", ".eddu"]),
   (".gov", [".gv", ".goo", ".gou", ".goc"])]

/-- Function `FeatureExtractor._has_ip_address`: the anchored regex
`^\d{1,3}\.\d{1,3}\.\d{1,3}\.\d{1,3}$` holds iff splitting on dots gives
exactly four runs of one to three digits. -/
def has_ip_address (domain : List Char) : Bool :=
  let parts := splitC '.' domain
  parts.length == 4 &&
    parts.all (fun p => decide (1 ≤ p.length) && decide (p.length ≤ 3) && p.all Char.isDigit)

/-- Function `FeatureExtractor._has_suspicious_tld`. -/
def has_suspicious_tld (domain : List Char) : Bool :=
  fe_suspicious_tlds.any (fun t => endsW t.data domain)

/-- Function `FeatureExtractor._string_similarity`: positional match ratio of
the zipped strings over the larger length. -/
def string_similarity (s1 s2 : List Char) : ℚ :=
  if s1.isEmpty || s2.isEmpty then 0
  else
    let a := toLowerL s1
    let b := toLowerL s2
    let nmatch := ((a.zip b).filter (fun p => p.1 == p.2)).length
    let max_length := max a.length b.length
    if 0 < max_length then (nmatch : ℚ) / (max_length : ℚ) else 0

/-- Table `homograph_mappings` inside `_check_brand_impersonation`
(dict insertion order, applied sequentially). -/
def homograph_mappings : List (String × String) :=
  [("0", "o"), ("1", "l"), ("3", "e"), ("4", "a"), ("5", "s"), ("6", "b"),
   ("7", "t"), ("rn", "m"), ("cl", "d"), ("vv", "w"),
   ("goog1e", "google"), ("paypai", "paypal")]

/-- Security terms used for path scoring in `_check_brand_impersonation`. -/
def security_terms : List String :=
  ["secure", "login", "verify", "account", "signin", "update", "confirm"]

/-- Function `FeatureExtractor._check_brand_impersonation`. -/
def check_brand_impersonation (domain path : List Char) : ℚ :=
  let tld_strip_list : List String :=
    [".com", ".org", ".net", ".edu", ".gov", ".io", ".co", ".us", ".ca", ".uk"]
      ++ fe_suspicious_tlds
  let clean1 := tld_strip_list.foldl (fun d t => replaceAll t.data [] d) (toLowerL domain)
  let clean_domain := replaceAll "www.".data [] clean1
  let domain_parts := splitP (fun c => c == '.' || c == '-') clean_domain
  let mapped_domain_parts := domain_parts.map (fun part =>
    homograph_mappings.foldl (fun p kv => replaceAll kv.1.data kv.2.data p) part)
  let parts_to_check := domain_parts ++ mapped_domain_parts
  -- exact membership, or positional similarity > 0.8 on tokens longer than 3
  let brand_hit1 := fe_popular_brands.any (fun brand =>
    parts_to_check.contains brand.data ||
    parts_to_check.any (fun part =>
      decide (3 < part.length) && decide (3 < brand.data.length) &&
      decide ((4 : ℚ)/5 < string_similarity part brand.data)))
  -- combined terms: brand strictly inside a longer token
  let brand_hit2 := brand_hit1 || fe_popular_brands.any (fun brand =>
    parts_to_check.any (fun part =>
      decide (brand.data.length < part.length) && hasSub brand.data part))
  -- "brand.com" inside a multi-label host distinct from the canonical forms
  let brand_in_domain := brand_hit2 ||
    (decide (2 ≤ countC '.' domain) && fe_popular_brands.any (fun brand =>
      hasSub (brand.data ++ ".com".data) domain &&
      !(domain == ("www.".data ++ brand.data ++ ".com".data)) &&
      !(domain == (brand.data ++ ".com".data))))
  let pathL := toLowerL path
  let path_parts := splitC '/' pathL
  let path_score : ℚ := fe_popular_brands.foldl (fun ps brand =>
    if sIn brand pathL then
      let ps1 := if security_terms.any (fun term =>
          path_parts.contains term.data ||
          sIn (term ++ "-" ++ brand) pathL || sIn (brand ++ "-" ++ term) pathL)
        then 9/10 else ps
      if ps1 < 1/2 then 7/10 else ps1
    else ps) 0
  if brand_in_domain then 9/10
  else if 1/2 < path_score then path_score
  else 0

/-- List `redirect_patterns` inside `_check_redirect_patterns`. -/
def redirect_patterns : List String :=
  ["url=", "redirect=", "link=", "goto=", "to=", "target=", "u=", "r=",
   "return=", "return_to=", "returnto=", "return-to=", "cgi-bin/redirect.cgi",
   "out/", "window.location=", ".php?url=", "redir/", "redirect/", "go/",
   "out?", "transfer", "linkto=", "visit=", "forward=", "navigate=", ".php?"]

/-- One alternation step of the regex `(https?:|url=|redirect=)`: the length
of the marker matched at the head of `s`, if any. -/
def markerAt (s : List Char) : Option Nat :=
  if isPre "https:".data s then some 6
  else if isPre "http:".data s then some 5
  else if isPre "url=".data s then some 4
  else if isPre "redirect=".data s then some 9
  else none

/-- Some marker of `(https?:|url=|redirect=)` occurs somewhere in `s`. -/
def anyMarker : List Char → Bool
  | [] => false
  | c :: t => (markerAt (c :: t)).isSome || anyMarker t

/-- Search semantics of `re.search(r'(https?:|url=|redirect=).*?(https?:|url=|redirect=)', url)`:
two marker occurrences, the second starting at or after the end of the first.
No marker of this set can start strictly inside another marker match (no
marker is a proper internal substring of another), so it suffices to take the
first marker and look for any later, disjoint one. -/
def hasTwoMarkers : List Char → Bool
  | [] => false
  | c :: t =>
    match markerAt (c :: t) with
    | some L => anyMarker ((c :: t).drop L)
    | none => hasTwoMarkers t

/-- Character class `[a-zA-Z0-9+/]` of the base64 regex. -/
def base64_char (c : Char) : Bool := c.isAlpha || c.isDigit || c == '+' || c == '/'

/-- Tail condition `={0,2}(?:[&?]|$)` of the base64 regex, checked at the
first non-base64 position after a run. -/
def b64tail (l : List Char) : Bool :=
  let eqs := (l.takeWhile (fun c => c == '=')).length
  decide (eqs ≤ 2) &&
    (match l.drop eqs with
     | [] => true
     | c :: _ => c == '&' || c == '?')

/-- Scanner for `re.search(r'[a-zA-Z0-9+/]{30,}={0,2}(?:[&?]|$)', url)`:
tracks the current base64 run; a match needs a maximal run of length ≥ 30
whose end satisfies the tail condition ('=' , '&', '?' are not base64
characters, so only maximal runs can be followed by the tail). -/
def has_base64F : List Char → Nat → Bool
  | [], run => decide (30 ≤ run)
  | c :: t, run =>
    if base64_char c then has_base64F t (run + 1)
    else (decide (30 ≤ run) && b64tail (c :: t)) || has_base64F t 0

/-- Regex test `bool(re.search(r'[a-zA-Z0-9+/]{30,}={0,2}(?:[&?]|$)', url))`. -/
def has_base64 (s : List Char) : Bool := has_base64F s 0

/-- Function `FeatureExtractor._check_redirect_patterns`. -/
def check_redirect_patterns (url : List Char) : ℚ :=
  let lowered := toLowerL url
  let has_encoded_url := sIn "http%3A" url || sIn "https%3A" url
  let has_multiple_redirects := hasTwoMarkers url
  let hb64 := has_base64 url
  if redirect_patterns.any (fun p => sIn p lowered) then
    if has_encoded_url || hb64 || has_multiple_redirects then 9/10 else 4/5
  else if has_encoded_url then 7/10
  else if hb64 then 3/5
  else if has_multiple_redirects then 7/10
  else 0

/-- Exact decision of `FeatureExtractor._calculate_entropy(text) > 3.5`.
With L = len(text) and character frequencies c, Shannon entropy is
log2 L - (1/L)·Σ c·log2 c, and entropy > 3.5 iff
L^L / Π c^c > 2^(3.5·L) iff (Π c^c)^2 · 2^(7L) < L^(2L) (all in ℕ). -/
def entropy_gt_35 (text : List Char) : Bool :=
  let L := text.length
  let counts := text.dedup.map (fun c => text.count c)
  decide ((counts.map (fun c => c ^ c)).prod ^ 2 * 2 ^ (7 * L) < L ^ (2 * L))

/-- Strip step of `_check_deceptive_hostname`:
`domain = domain.lower().replace("www.", "")`. -/
def deceptive_strip (domain : List Char) : List Char :=
  replaceAll "www.".data [] (toLowerL domain)

/-- Flag `has_tld_in_name` of `_check_deceptive_hostname`: some known TLD
(suspicious list + .com/.org/.net) occurs, dot-prefixed (`f".{tld[1:]}"`
rebuilds the TLD itself), anywhere in the stripped host. -/
def has_tld_in_name (d : List Char) : Bool :=
  (fe_suspicious_tlds ++ [".com", ".org", ".net"]).any
    (fun t => hasSub ('.' :: t.data.drop 1) d)

/-- Flag `has_high_entropy` of `_check_deceptive_hostname`: the entropy of
`parts[0]` when the host has more than one dot-label, else entropy 0 (never
greater than 3.5). -/
def high_entropy_flag (d : List Char) : Bool :=
  let parts := splitC '.' d
  if 1 < parts.length then entropy_gt_35 parts.headI else false

/-- Flag `is_long_domain` of `_check_deceptive_hostname`: `len(domain) > 30`. -/
def is_long_domain (d : List Char) : Bool := decide (30 < d.length)

/-- Flag `has_misleading_tld` of `_check_deceptive_hostname`: the non-TLD
portion equals a popular brand and the TLD is in some confusable list of
`tld_substitutions`. -/
def has_misleading_tld (d : List Char) : Bool :=
  let parts := splitC '.' d
  let domain_without_tld := if 1 < parts.length then joinC '.' parts.dropLast else parts.headI
  let tld : List Char := if 1 < parts.length then '.' :: parts.getLastI else []
  tld_substitutions.any (fun rf => fe_popular_brands.any (fun brand =>
    domain_without_tld == brand.data && rf.2.any (fun fake => tld == fake.data)))

/-- Final score chain of `_check_deceptive_hostname` as a function of the four
flags: two independent `max` updates, then the entropy/length `elif` ladder. -/
def score_from_flags (m t e l : Bool) : ℚ :=
  let s0 : ℚ := 0
  let s1 := if m then max s0 1 else s0
  let s2 := if t then max s1 (9/10) else s1
  if e && l then max s2 (4/5)
  else if e then max s2 (7/10)
  else if l then max s2 (1/2)
  else s2

/-- Function `FeatureExtractor._check_deceptive_hostname`. -/
def check_deceptive_hostname (domain : List Char) : ℚ :=
  let d := deceptive_strip domain
  score_from_flags (has_misleading_tld d) (has_tld_in_name d) (high_entropy_flag d)
    (is_long_domain d)

/-! ### MD5 (Python `hashlib.md5`), for the hash-derived `domainAge` proxy -/

/-- Reduction to a 32-bit word. -/
def u32 (n : Nat) : Nat := n % 4294967296

/-- Left rotation of a 32-bit word (`x < 2^32`). -/
def rotl32 (x n : Nat) : Nat := u32 (x * 2 ^ n + x / 2 ^ (32 - n))

/-- Bitwise complement of a 32-bit word. -/
def mnot (x : Nat) : Nat := 4294967295 - x

/-- The MD5 sine-derived constant table `K[i] = floor(2^32 * |sin(i+1)|)`. -/
def md5_K : List Nat :=
  [3614090360, 3905402710, 606105819, 3250441966, 4118548399, 1200080426,
   2821735955, 4249261313, 1770035416, 2336552879, 4294925233, 2304563134,
   1804603682, 4254626195, 2792965006, 1236535329, 4129170786, 3225465664,
   643717713, 3921069994, 3593408605, 38016083, 3634488961, 3889429448,
   568446438, 3275163606, 4107603335, 1163531501, 2850285829, 4243563512,
   1735328473, 2368359562, 4294588738, 2272392833, 1839030562, 4259657740,
   2763975236, 1272893353, 4139469664, 3200236656, 681279174, 3936430074,
   3572445317, 76029189, 3654602809, 3873151461, 530742520, 3299628645,
   4096336452, 1126891415, 2878612391, 4237533241, 1700485571, 2399980690,
   4293915773, 2240044497, 1873313359, 4264355552, 2734768916, 1309151649,
   4149444226, 3174756917, 718787259, 3951481745]

/-- The MD5 per-round left-rotation amounts. -/
def md5_s : List Nat :=
  [7, 12, 17, 22, 7, 12, 17, 22, 7, 12, 17, 22, 7, 12, 17, 22,
   5, 9, 14, 20, 5, 9, 14, 20, 5, 9, 14, 20, 5, 9, 14, 20,
   4, 11, 16, 23, 4, 11, 16, 23, 4, 11, 16, 23, 4, 11, 16, 23,
   6, 10, 15, 21, 6, 10, 15, 21, 6, 10, 15, 21, 6, 10, 15, 21]

/-- UTF-8 encoding of a string (Python `str.encode()`). -/
def utf8Bytes (s : List Char) : List Nat :=
  (s.map (fun c =>
    let n := c.toNat
    if n < 128 then [n]
    else if n < 2048 then [192 + n / 64, 128 + n % 64]
    else if n < 65536 then [224 + n / 4096, 128 + n / 64 % 64, 128 + n % 64]
    else [240 + n / 262144, 128 + n / 4096 % 64, 128 + n / 64 % 64, 128 + n % 64])).flatten

/-- MD5 padding: append 0x80, zero bytes to 56 mod 64, then the bit length
as a 64-bit little-endian quantity. -/
def md5_pad (msg : List Nat) : List Nat :=
  let len := msg.length
  let zeros := (119 - len % 64) % 64
  let bitlen := 8 * len % 2 ^ 64
  msg ++ [128] ++ List.replicate zeros 0 ++ (List.range 8).map (fun i => bitlen / 256 ^ i % 256)

/-- Little-endian 32-bit word at byte offset `i`. -/
def leWord (bytes : List Nat) (i : Nat) : Nat :=
  bytes.getD i 0 + 256 * bytes.getD (i + 1) 0 + 65536 * bytes.getD (i + 2) 0
    + 16777216 * bytes.getD (i + 3) 0

/-- The MD5 round function and message-word index for round `i`. -/
def md5_fg (i b c d : Nat) : Nat × Nat :=
  if i < 16 then ((b &&& c) ||| (mnot b &&& d), i)
  else if i < 32 then ((d &&& b) ||| (mnot d &&& c), (5 * i + 1) % 16)
  else if i < 48 then (b ^^^ c ^^^ d, (3 * i + 5) % 16)
  else (c ^^^ (b ||| mnot d), 7 * i % 16)

/-- One MD5 round on the state `(a, b, c, d)`. -/
def md5_round (M : List Nat) (st : Nat × Nat × Nat × Nat) (i : Nat) :
    Nat × Nat × Nat × Nat :=
  let (f, g) := md5_fg i st.2.1 st.2.2.1 st.2.2.2
  let f2 := u32 (f + st.1 + md5_K.getD i 0 + M.getD g 0)
  (st.2.2.2, u32 (st.2.1 + rotl32 f2 (md5_s.getD i 0)), st.2.1, st.2.2.1)

/-- Processing of one 64-byte block. -/
def md5_block (st : Nat × Nat × Nat × Nat) (block : List Nat) :
    Nat × Nat × Nat × Nat :=
  let M := (List.range 16).map (fun j => leWord block (4 * j))
  let r := (List.range 64).foldl (md5_round M) st
  (u32 (st.1 + r.1), u32 (st.2.1 + r.2.1), u32 (st.2.2.1 + r.2.2.1),
   u32 (st.2.2.2 + r.2.2.2))

/-- Partition of the padded message into 64-byte blocks. -/
def chunk64 : List Nat → List (List Nat)
  | [] => []
  | a :: t => ((a :: t).take 64) :: chunk64 ((a :: t).drop 64)
termination_by l => l.length
decreasing_by simp; omega

/-- Little-endian byte serialisation of a 32-bit word. -/
def leBytes (w : Nat) : List Nat :=
  [w % 256, w / 256 % 256, w / 65536 % 256, w / 16777216 % 256]

/-- Value `int(hashlib.md5(msg).hexdigest(), 16)`: the 16 digest bytes
(the four state words, each little-endian) read as a big-endian integer. -/
def md5_digest_nat (msg : List Nat) : Nat :=
  let padded := md5_pad msg
  let init : Nat × Nat × Nat × Nat := (1732584193, 4023233417, 2562383102, 271733878)
  let r := (chunk64 padded).foldl md5_block init
  let digest := leBytes r.1 ++ leBytes r.2.1 ++ leBytes r.2.2.1 ++ leBytes r.2.2.2
  digest.foldl (fun acc bt => acc * 256 + bt) 0

/-- Hash step of `extract_from_url`:
`int(hashlib.md5(domain.encode()).hexdigest(), 16) % 100`. -/
def domain_hash (domain : List Char) : Nat := md5_digest_nat (utf8Bytes domain) % 100

/-- The simulated-WHOIS `domainAge` value of `extract_from_url`. -/
def domainAge_value (domain : List Char) : ℚ :=
  if fe_popular_brands.any (fun b => sIn b domain) && decide (domain_hash domain < 80) then
    (if domain_hash domain < 60 then 4/5 else 1/2)
  else 0

/-! ### Model of `urllib.parse.urlparse` (CPython ≥ 3.10 `urlsplit`,
plus the params split of `urlparse`) -/

/-- Scheme parse result: scheme, netloc, path, query, fragment. -/
structure UrlParts where
  scheme : List Char
  netloc : List Char
  path : List Char
  query : List Char
  fragment : List Char

/-- Python `scheme_chars`: ASCII alphanumerics and `+`, `-`, `.`. -/
def scheme_char (c : Char) : Bool := c.isAlphanum || c == '+' || c == '-' || c == '.'

/-- Params split `_splitparams` of `urlparse`: drop everything from the first
`;` of the last path segment (or of the whole path when it has no `/`). -/
def splitparams (p : List Char) : List Char :=
  if p.contains ';' then
    if p.contains '/' then
      let segs := splitC '/' p
      let lastSeg := segs.getLastI
      if lastSeg.contains ';' then
        joinC '/' (segs.dropLast ++ [lastSeg.takeWhile (fun c => !(c == ';'))])
      else p
    else p.takeWhile (fun c => !(c == ';'))
  else p

/-- Model of `urlparse(url)`: strip leading/trailing control-or-space
characters, remove tab/CR/LF, split off a valid scheme (letter head, then
scheme characters, before the first `:`), then `//netloc` up to `/?#` (raising
`ValueError` on an unbalanced `[`/`]` in the netloc, the parse failure mode of
`urlsplit`), then fragment after the first `#`, query after the first `?`, and
the params split on the remaining path. -/
def urlsplitE (rawUrl : List Char) : Except Unit UrlParts :=
  let url0 := ((rawUrl.dropWhile (fun c => c.toNat ≤ 32)).reverse.dropWhile
    (fun c => c.toNat ≤ 32)).reverse
  let url := url0.filter (fun c => !(c == '\t' || c == '\r' || c == '\n'))
  let sp := url.span (fun c => !(c == ':'))
  let schemeRest : List Char × List Char :=
    match sp.2 with
    | ':' :: after =>
      if (match sp.1 with
          | [] => false
          | c0 :: rest => c0.isAlpha && rest.all scheme_char) then
        (toLowerL sp.1, after)
      else ([], url)
    | _ => ([], url)
  let scheme := schemeRest.1
  let rest := schemeRest.2
  let netlocRest : List Char × List Char :=
    if isPre "//".data rest then
      ((rest.drop 2).takeWhile (fun c => !(c == '/' || c == '?' || c == '#')),
       (rest.drop 2).dropWhile (fun c => !(c == '/' || c == '?' || c == '#')))
    else ([], rest)
  let netloc := netlocRest.1
  if (netloc.contains '[' && !netloc.contains ']')
      || (netloc.contains ']' && !netloc.contains '[') then .error ()
  else
    let fr := netlocRest.2.span (fun c => !(c == '#'))
    let fragment : List Char := match fr.2 with | _ :: f => f | [] => []
    let qu := fr.1.span (fun c => !(c == '?'))
    let query : List Char := match qu.2 with | _ :: q => q | [] => []
    .ok { scheme := scheme, netloc := netloc, path := splitparams qu.1,
          query := query, fragment := fragment }

/-! ### `FeatureExtractor.extract_from_url` -/

/-- Keys produced by a successful `extract_from_url`, in assignment order. -/
def url_feature_keys : List String :=
  ["hasIPAddress", "urlLength", "hasAtSymbol", "hasManySubdomains",
   "hasSuspiciousTLD", "hasBrandImpersonation", "hasHyphens",
   "hasRedirectPattern", "hasDeceptiveHostname", "isNotHttps",
   "hasCertificateIssues", "domainAge", "lowAlexaRank"]

/-- Body of the `try` block of `FeatureExtractor.extract_from_url`: parses the
URL (propagating the parse failure) and assembles the feature dict in source
order.  Length/at-symbol/redirect checks read the raw `url` argument;
host-based checks read `parsed_url.netloc.lower()`; path checks read
`parsed_url.path.lower()`. -/
def extract_from_url_body (url : List Char) : Except Unit (List (String × ℚ)) :=
  match urlsplitE url with
  | .error e => .error e
  | .ok parts =>
    let domain := toLowerL parts.netloc
    let path := toLowerL parts.path
    .ok [("hasIPAddress", if has_ip_address domain then 1 else 0),
         ("urlLength",
           if 100 < url.length then 1
           else if 75 < url.length then 4/5
           else if 50 < url.length then 1/2
           else 0),
         ("hasAtSymbol", if url.contains '@' then 1 else 0),
         ("hasManySubdomains",
           let subdomain_count := countC '.' domain
           if 3 < subdomain_count then 1
           else if 2 < subdomain_count then 7/10
           else 0),
         ("hasSuspiciousTLD", if has_suspicious_tld domain then 1 else 0),
         ("hasBrandImpersonation", check_brand_impersonation domain path),
         ("hasHyphens",
           let hyphen_count := countC '-' domain
           if 2 < hyphen_count then 1
           else if 1 < hyphen_count then 7/10
           else if hyphen_count == 1 then 3/10
           else 0),
         ("hasRedirectPattern", check_redirect_patterns url),
         ("hasDeceptiveHostname", check_deceptive_hostname domain),
         ("isNotHttps", if parts.scheme == "https".data then 0 else 1),
         ("hasCertificateIssues", 0),
         ("domainAge", domainAge_value domain),
         ("lowAlexaRank", domainAge_value domain)]

/-- Function `FeatureExtractor.extract_from_url`: the `try/except` wrapper
collapses every failure of the body to the empty mapping. -/
def extract_from_url (url : String) : List (String × ℚ) :=
  match extract_from_url_body url.data with
  | .ok features => features
  | .error _ => []

/-! ### Spec-side restatements for the deceptive-hostname claim (C4) -/

/-- Modelled from the claim's words for the entropy flag: "the first label's
Shannon entropy exceeds 3.5" (unconditionally about the first dot-label). -/
def high_entropy_spec (d : List Char) : Bool :=
  entropy_gt_35 (splitC '.' d).headI

/-- Modelled from the claim's words: "the highest applicable value of"
1.0 (misleading TLD) / 0.9 (TLD in name) / 0.8 (high entropy and long) /
0.7 (high entropy alone) / 0.5 (long alone) / 0.0. -/
def spec_from_flags (m t e l : Bool) : ℚ :=
  max (if m then 1 else 0)
    (max (if t then 9/10 else 0)
      (max (if e && l then 4/5 else 0)
        (max (if e && !l then 7/10 else 0)
          (if l && !e then 1/2 else 0))))

/-- Claim C4 as stated: the deceptive-hostname score per the spec's priority
rules, with the entropy flag read off the first label unconditionally. -/
def check_deceptive_hostname_spec (domain : List Char) : ℚ :=
  let d := deceptive_strip domain
  spec_from_flags (has_misleading_tld d) (has_tld_in_name d) (high_entropy_spec d)
    (is_long_domain d)

/-- Claim C4 amended: identical except that the entropy flag is the code's
(taken as 0, hence false, for a host with a single dot-label). -/
def check_deceptive_hostname_spec_amended (domain : List Char) : ℚ :=
  let d := deceptive_strip domain
  spec_from_flags (has_misleading_tld d) (has_tld_in_name d) (high_entropy_flag d)
    (is_long_domain d)

/-- Replacement of one feature's value (for the monotonicity claim C6):
the mapping with key `f` rebound to `v` and all other entries unchanged. -/
def set_feature (features : List (String × ℚ)) (f : String) (v : ℚ) :
    List (String × ℚ) :=
  features.map (fun p => if p.1 = f then (p.1, v) else p)

/-! ## Helper lemmas for the Scorer -/

theorem lookup_nonneg (l : List (String × ℚ)) (h : ∀ p ∈ l, 0 ≤ p.2) (f : String) :
    0 ≤ (l.lookup f).getD 0 := by
  induction l with
  | nil => simp [List.lookup]
  | cons a t ih =>
    simp only [List.lookup]
    split
    · exact h a (List.mem_cons_self a t)
    · exact ih (fun p hp => h p (List.mem_cons_of_mem a hp))

theorem feature_weight_nonneg (f : String) : 0 ≤ feature_weight f := by
  refine lookup_nonneg _ ?_ f
  intro p hp
  fin_cases hp <;> norm_num

theorem score_acc_foldl (l : List (String × ℚ)) :
    ∀ a b : ℚ,
      l.foldl (fun st p => (st.1 + contribution p.1 p.2, st.2 + feature_weight p.1)) (a, b)
        = (a + (l.map fun p => contribution p.1 p.2).sum,
           b + (l.map fun p => feature_weight p.1).sum) := by
  induction l with
  | nil => intro a b; simp
  | cons p t ih =>
    intro a b
    simp only [List.foldl_cons, List.map_cons, List.sum_cons]
    rw [ih]
    ring_nf

theorem score_acc_eq (features : List (String × ℚ)) :
    score_acc features
      = ((features.map fun p => contribution p.1 p.2).sum,
         (features.map fun p => feature_weight p.1).sum) := by
  unfold score_acc
  rw [score_acc_foldl]
  simp

theorem total_weight_nonneg (features : List (String × ℚ)) :
    0 ≤ (features.map fun p => feature_weight p.1).sum := by
  apply List.sum_nonneg
  intro x hx
  simp only [List.mem_map] at hx
  obtain ⟨p, _, rfl⟩ := hx
  exact feature_weight_nonneg p.1

theorem contribution_eq_spec (f : String) (v : ℚ) :
    contribution f v = contribution_spec f v := by
  unfold contribution contribution_spec
  split <;> ring

theorem raw_score_eq_spec (features : List (String × ℚ)) :
    raw_score features = raw_score_spec features := by
  unfold raw_score raw_score_spec
  rw [score_acc_eq]
  simp only
  have hnn := total_weight_nonneg features
  rcases lt_or_eq_of_le hnn with h | h
  · rw [if_pos h, if_neg (by linarith)]
    congr 2
    exact List.map_congr_left fun (p : String × ℚ) _ => contribution_eq_spec p.1 p.2
  · rw [if_neg (by rw [← h]; exact lt_irrefl 0), if_pos h.symm]

theorem suspicious_count_eq_spec (features : List (String × ℚ)) :
    suspicious_count features = suspicious_count_spec features := by
  unfold suspicious_count suspicious_count_spec
  rw [List.countP_eq_length_filter]

/-! ## Claim theorems: Scorer -/

/-- C1: for every feature mapping, the score returned by `predict` is obtained
by summing per-feature contributions (value × weight, ×1.5 for a critical
feature with value > 0.5), dividing by the sum of weights of present features
(0 when that sum is 0), applying the logistic `1/(1 + e^(-12·(raw - 0.4)))`,
and then, with n the number of present features of value > 0.5 and
weight > 0.7, adding `0.1·(n-2)` capped at 1.0 whenever n ≥ 3. -/
theorem predict_score_formula (features : List (String × ℚ)) :
    (predict features).score =
      if 3 ≤ suspicious_count_spec features then
        min (1 / (1 + Real.exp (-12 * ((raw_score_spec features : ℝ) - 2/5)))
              + ((suspicious_count_spec features : ℝ) - 2) * (1/10)) 1
      else 1 / (1 + Real.exp (-12 * ((raw_score_spec features : ℝ) - 2/5))) := by
  show final_score features = _
  unfold final_score sigmoid_score
  rw [raw_score_eq_spec, suspicious_count_eq_spec]

open scoped Classical in
/-- C2: for every feature mapping, `predict` classifies as phishing exactly
when the final score exceeds 0.45, and the confidence is `|score - 0.5|·2`
clamped to [0.6, 0.99] in the phishing case and to [0, 0.99] otherwise. -/
theorem predict_verdict_fields (features : List (String × ℚ)) :
    ((predict features).isPhishing ↔ 9/20 < (predict features).score) ∧
    (predict features).confidence =
      (if 9/20 < (predict features).score then
        min (max (|(predict features).score - 1/2| * 2) (6/10)) (99/100)
      else min (max (|(predict features).score - 1/2| * 2) 0) (99/100)) := by
  constructor
  · exact Iff.rfl
  · show (if 9/20 < final_score features then
        min (max (|final_score features - 1/2| * 2) (6/10)) (99/100)
      else min (|final_score features - 1/2| * 2) (99/100)) =
      (if 9/20 < final_score features then
        min (max (|final_score features - 1/2| * 2) (6/10)) (99/100)
      else min (max (|final_score features - 1/2| * 2) 0) (99/100))
    rcases lt_or_le (9/20 : ℝ) (final_score features) with h | h
    · rw [if_pos h, if_pos h]
    · rw [if_neg (not_lt.mpr h), if_neg (not_lt.mpr h),
        max_eq_left (by positivity : (0:ℝ) ≤ |final_score features - 1/2| * 2)]

/-- C5: the threat level is Low exactly for score < 0.25, Medium exactly for
0.25 ≤ score < 0.55, High exactly for 0.55 ≤ score (strict less-than at both
boundaries), and `predict` assigns the threat level of its final score. -/
theorem threat_level_boundaries :
    (∀ s : ℝ, (get_threat_level s = ThreatLevel.Low ↔ s < 1/4) ∧
      (get_threat_level s = ThreatLevel.Medium ↔ 1/4 ≤ s ∧ s < 11/20) ∧
      (get_threat_level s = ThreatLevel.High ↔ 11/20 ≤ s)) ∧
    ∀ features : List (String × ℚ),
      (predict features).threatLevel = get_threat_level ((predict features).score) := by
  refine ⟨fun s => ?_, fun features => rfl⟩
  unfold get_threat_level
  split_ifs with h1 h2
  · exact ⟨⟨fun _ => h1, fun _ => rfl⟩,
      ⟨(fun h => nomatch h), fun hp => absurd h1 (not_lt.mpr hp.1)⟩,
      ⟨(fun h => nomatch h), fun hp => absurd h1 (not_lt.mpr (by linarith))⟩⟩
  · exact ⟨⟨(fun h => nomatch h), fun hp => absurd hp (not_lt.mpr (not_lt.mp h1))⟩,
      ⟨fun _ => ⟨not_lt.mp h1, h2⟩, fun _ => rfl⟩,
      ⟨(fun h => nomatch h), fun hp => absurd h2 (not_lt.mpr hp)⟩⟩
  · exact ⟨⟨(fun h => nomatch h),
        fun hp => absurd hp (not_lt.mpr (by linarith [not_lt.mp h2]))⟩,
      ⟨(fun h => nomatch h), fun hp => absurd hp.2 h2⟩,
      ⟨fun _ => not_lt.mp h2, fun _ => rfl⟩⟩

/-- Helper for C6: one feature's contribution is monotone in its value. -/
theorem contribution_mono (f : String) {v1 v2 : ℚ} (h0 : 0 ≤ v1) (h12 : v1 ≤ v2) :
    contribution f v1 ≤ contribution f v2 := by
  have hw := feature_weight_nonneg f
  unfold contribution
  split_ifs with ha hb hb
  · nlinarith
  · exact absurd ⟨ha.1, lt_of_lt_of_le ha.2 h12⟩ hb
  · nlinarith
  · nlinarith

/-- Helper for C6: rebinding a feature value does not change the weight sum. -/
theorem set_feature_weights (features : List (String × ℚ)) (f : String) (v : ℚ) :
    ((set_feature features f v).map fun p => feature_weight p.1)
      = features.map fun p => feature_weight p.1 := by
  unfold set_feature
  rw [List.map_map]
  apply List.map_congr_left
  intro p _
  by_cases h : p.1 = f <;> simp [Function.comp, h]

/-- C6: the raw weighted score (before the logistic squashing) is monotone
non-decreasing in each individual feature value: replacing a present feature's
value v1 ≤ v2 (within [0,1]) never decreases it. -/
theorem raw_score_monotone (features : List (String × ℚ)) (f : String) (v1 v2 : ℚ)
    (hmem : f ∈ features.map Prod.fst) (h0 : 0 ≤ v1) (h12 : v1 ≤ v2) (h2 : v2 ≤ 1) :
    raw_score (set_feature features f v1) ≤ raw_score (set_feature features f v2) := by
  have hnum : ((set_feature features f v1).map fun p => contribution p.1 p.2).sum
      ≤ ((set_feature features f v2).map fun p => contribution p.1 p.2).sum := by
    unfold set_feature
    rw [List.map_map, List.map_map]
    apply List.sum_le_sum
    intro p _
    by_cases h : p.1 = f
    · simpa [Function.comp, h] using contribution_mono f h0 h12
    · simp [Function.comp, h]
  unfold raw_score
  rw [score_acc_eq, score_acc_eq]
  simp only [set_feature_weights]
  split_ifs with h
  · exact (div_le_div_right h).mpr hnum
  · exact le_refl 0

/-- Witness for C6 at a concrete mapping and value pair. -/
theorem raw_score_monotone_witness :
    "hasIPAddress" ∈ ([("hasIPAddress", (1:ℚ)/4)].map Prod.fst) ∧
    (0:ℚ) ≤ 1/4 ∧ (1:ℚ)/4 ≤ 3/4 ∧ (3:ℚ)/4 ≤ 1 ∧
    raw_score (set_feature [("hasIPAddress", (1:ℚ)/4)] "hasIPAddress" (1/4))
      ≤ raw_score (set_feature [("hasIPAddress", (1:ℚ)/4)] "hasIPAddress" (3/4)) :=
  ⟨List.mem_singleton.mpr rfl, by norm_num, by norm_num, by norm_num,
   raw_score_monotone [("hasIPAddress", (1:ℚ)/4)] "hasIPAddress" (1/4) (3/4)
     (List.mem_singleton.mpr rfl) (by norm_num) (by norm_num) (by norm_num)⟩

/-- C9: a phishing verdict never carries a Low threat level: phishing needs
score > 0.45 while Low needs score < 0.25. -/
theorem phishing_not_low (features : List (String × ℚ))
    (h : (predict features).isPhishing) :
    (predict features).threatLevel ≠ ThreatLevel.Low := by
  have hs : 9/20 < final_score features := h
  show get_threat_level (final_score features) ≠ ThreatLevel.Low
  unfold get_threat_level
  rw [if_neg (by linarith)]
  split_ifs
  · intro hc; cases hc
  · intro hc; cases hc

/-- Witness for C9: a concrete mapping (three critical features at 1.0) whose
verdict is phishing, hence with non-Low threat level. -/
theorem phishing_not_low_witness :
    (predict [("hasIPAddress", 1), ("hasBrandImpersonation", 1),
      ("hasDeceptiveHostname", 1)]).isPhishing ∧
    (predict [("hasIPAddress", 1), ("hasBrandImpersonation", 1),
      ("hasDeceptiveHostname", 1)]).threatLevel ≠ ThreatLevel.Low := by
  have hraw : raw_score [("hasIPAddress", (1:ℚ)), ("hasBrandImpersonation", 1),
      ("hasDeceptiveHostname", 1)] = 3/2 := by with_unfolding_all rfl
  have hcnt : suspicious_count [("hasIPAddress", (1:ℚ)), ("hasBrandImpersonation", 1),
      ("hasDeceptiveHostname", 1)] = 3 := by with_unfolding_all rfl
  have hp : (predict [("hasIPAddress", 1), ("hasBrandImpersonation", 1),
      ("hasDeceptiveHostname", 1)]).isPhishing := by
    show (9:ℝ)/20 < final_score _
    unfold final_score sigmoid_score
    rw [hraw, hcnt]
    rw [if_pos (by norm_num)]
    have hlt : Real.exp (-12 * (((3:ℚ)/2 : ℝ) - 2/5)) < 1 := by
      rw [← Real.exp_zero]
      apply Real.exp_lt_exp.mpr
      push_cast
      norm_num
    have hpos : 0 < Real.exp (-12 * (((3:ℚ)/2 : ℝ) - 2/5)) := Real.exp_pos _
    apply lt_min
    · have hhalf : (1:ℝ)/2 < 1 / (1 + Real.exp (-12 * (((3:ℚ)/2 : ℝ) - 2/5))) := by
        rw [div_lt_div_iff (by norm_num) (by linarith)]
        linarith
      push_cast
      push_cast at hhalf
      nlinarith
    · norm_num
  exact ⟨hp, phishing_not_low _ hp⟩

/-! ## Claim theorems: deceptive hostname (C4) -/

/-- Helper for C4: over all four flag combinations, the source's
max-chain/elif score agrees with the spec's highest-applicable-value score
(with the code's entropy flag), and lies in {0, 0.5, 0.7, 0.8, 0.9, 1}. -/
theorem score_flags_cases (m t e l : Bool) :
    score_from_flags m t e l = spec_from_flags m t e l ∧
    score_from_flags m t e l ∈ ([0, 1/2, 7/10, 4/5, 9/10, 1] : List ℚ) := by
  cases m <;> cases t <;> cases e <;> cases l <;>
    exact ⟨by with_unfolding_all rfl,
           of_decide_eq_true (by with_unfolding_all rfl)⟩

/-- C4 counterexample: for the dotless 36-character host
`abcdefghijklmnopqrstuvwxyz0123456789` (entropy of its first label is
log2 36 > 3.5 and its length exceeds 30) the code scores 0.5 (the code reads
the entropy as 0 when the host has a single dot-label), while the claim's
formula requires 0.8. -/
theorem deceptive_hostname_spec_cex :
    check_deceptive_hostname "abcdefghijklmnopqrstuvwxyz0123456789".data = 1/2 ∧
    check_deceptive_hostname_spec "abcdefghijklmnopqrstuvwxyz0123456789".data = 4/5 := by
  exact ⟨by with_unfolding_all rfl, by with_unfolding_all rfl⟩

/-- C4 amended: the deceptive-hostname score is the highest applicable of
1.0 (misleading TLD) / 0.9 (TLD in name) / 0.8 (high entropy and long) /
0.7 (high entropy alone) / 0.5 (long alone) / 0.0 - where the entropy flag
reads the first label only when the host has at least two dot-labels (it is 0
for a dotless host) - and the score always lies in {0, 0.5, 0.7, 0.8, 0.9, 1}. -/
theorem deceptive_hostname_amended (domain : List Char) :
    check_deceptive_hostname domain = check_deceptive_hostname_spec_amended domain ∧
    check_deceptive_hostname domain ∈ ([0, 1/2, 7/10, 4/5, 9/10, 1] : List ℚ) :=
  score_flags_cases (has_misleading_tld (deceptive_strip domain))
    (has_tld_in_name (deceptive_strip domain))
    (high_entropy_flag (deceptive_strip domain))
    (is_long_domain (deceptive_strip domain))

/-! ## Claim theorems: extract_from_url shape (C8, C10) -/

/-- C8: `extract_from_url` is a total function that never propagates a parse
failure: its result is either the empty mapping (the `except` branch, for any
failing input) or exactly the populated mapping produced by the `try` body -
callers can distinguish no further cases. -/
theorem extract_from_url_total (url : String) :
    extract_from_url url = [] ∨
    extract_from_url_body url.data = Except.ok (extract_from_url url) := by
  unfold extract_from_url
  cases h : extract_from_url_body url.data with
  | ok fs => right; rfl
  | error e => left; rfl

/-- Witness-style instance for C8's failure branch: an unbalanced bracket in
the netloc makes the parse fail, and the result is the empty mapping. -/
theorem extract_from_url_error_empty :
    extract_from_url "http://[a" = [] := by with_unfolding_all rfl

/-- C10: whenever `extract_from_url` succeeds (returns a non-empty mapping),
the mapping holds exactly the thirteen URL feature keys, in assignment order,
and `lowAlexaRank` equals `domainAge`. -/
theorem extract_from_url_keys (url : String) :
    extract_from_url url = [] ∨
    ((extract_from_url url).map Prod.fst = url_feature_keys ∧
      (extract_from_url url).lookup "lowAlexaRank"
        = (extract_from_url url).lookup "domainAge") := by
  unfold extract_from_url extract_from_url_body
  cases h : urlsplitE url.data with
  | error e => left; rfl
  | ok parts =>
    right
    exact ⟨by with_unfolding_all rfl, by with_unfolding_all rfl⟩

/-! ## Claim theorems: Explainer (C7) -/

/-- Helper: association-list lookup finds the value of a member pair when the
keys are duplicate-free. -/
theorem lookup_mem_nodup (l : List (String × ℚ)) (hnd : (l.map Prod.fst).Nodup)
    (f : String) (v : ℚ) (hm : (f, v) ∈ l) : l.lookup f = some v := by
  induction l with
  | nil => cases hm
  | cons a t ih =>
    rw [List.map_cons] at hnd
    have hnd' := List.nodup_cons.mp hnd
    rcases List.mem_cons.mp hm with heq | hmem
    · subst heq
      simp [List.lookup]
    · have hne : (f == a.1) = false := by
        apply beq_eq_false_iff_ne.mpr
        intro hfa
        exact hnd'.1 (hfa ▸ List.mem_map.mpr ⟨(f, v), hmem, rfl⟩)
      simp only [List.lookup, hne]
      exact ih hnd'.2 hmem

/-- Helper: summing a constant multiple over the second components. -/
theorem sum_map_snd_mul (l : List (String × ℚ)) (c : ℚ) :
    (l.map (fun p => p.2 * c)).sum = (l.map Prod.snd).sum * c := by
  induction l with
  | nil => simp
  | cons a t ih => simp [ih]; ring

/-- C7: `explain_prediction` emits one item per feature with value > 0 (and
none for zero-valued ones), each item's attribution is the feature's raw value
divided by the sum of positive values times 100 (so the attributions of a
nonempty result sum to exactly 100), and the result is sorted in descending
attribution order. -/
theorem explain_prediction_spec (features : List (String × ℚ))
    (hnd : (features.map Prod.fst).Nodup) :
    ((explain_prediction features).map (fun it => it.feature)).Perm
        ((features.filter fun p => decide (0 < p.2)).map Prod.fst) ∧
    (explain_prediction features).Forall (fun it =>
        (it.feature, it.value) ∈ features ∧ 0 < it.value ∧
        it.attribution = it.value
          / ((features.filter fun p => decide (0 < p.2)).map Prod.snd).sum * 100) ∧
    (explain_prediction features = [] ∨
      ((explain_prediction features).map (fun it => it.attribution)).sum = 100) ∧
    (explain_prediction features).Sorted (fun a b => b.attribution ≤ a.attribution) := by
  by_cases hT : 0 < ((features.filter fun p => decide (0 < p.2)).map Prod.snd).sum
  · -- positive total: the result is the sorted, normalised positive features
    have hexp : explain_prediction features =
        ((features.filter fun p => decide (0 < p.2)).map (fun p =>
          ExplanationItem.mk p.1 ((feature_descriptions.lookup p.1).getD p.1)
            (p.2 / ((features.filter fun p => decide (0 < p.2)).map Prod.snd).sum * 100)
            ((features.lookup p.1).getD 0))).mergeSort
          (fun a b => decide (b.attribution ≤ a.attribution)) := by
      simp only [explain_prediction]
      rw [if_pos hT, List.map_map]
      rfl
    have hpermitems := List.mergeSort_perm
        ((features.filter fun p => decide (0 < p.2)).map (fun p =>
          ExplanationItem.mk p.1 ((feature_descriptions.lookup p.1).getD p.1)
            (p.2 / ((features.filter fun p => decide (0 < p.2)).map Prod.snd).sum * 100)
            ((features.lookup p.1).getD 0)))
        (fun a b => decide (b.attribution ≤ a.attribution))
    refine ⟨?_, ?_, ?_, ?_⟩
    · rw [hexp]
      refine (hpermitems.map (fun it => it.feature)).trans ?_
      rw [List.map_map]
      exact List.Perm.refl _
    · rw [List.forall_iff_forall_mem]
      intro it hit
      rw [hexp] at hit
      have hit' := hpermitems.subset hit
      obtain ⟨p, hp, rfl⟩ := List.mem_map.mp hit'
      have hpf : p ∈ features := (List.mem_filter.mp hp).1
      have hppos : (0:ℚ) < p.2 := by
        have := (List.mem_filter.mp hp).2
        simpa using this
      have hlook : features.lookup p.1 = some p.2 := lookup_mem_nodup features hnd p.1 p.2 hpf
      refine ⟨?_, ?_, ?_⟩
      · show (p.1, (features.lookup p.1).getD 0) ∈ features
        rw [hlook]
        exact hpf
      · show (0:ℚ) < (features.lookup p.1).getD 0
        rw [hlook]
        exact hppos
      · show p.2 / _ * 100 = (features.lookup p.1).getD 0 / _ * 100
        rw [hlook]
        rfl
    · right
      rw [hexp]
      rw [List.Perm.sum_eq (List.Perm.map (fun it => it.attribution) hpermitems)]
      rw [List.map_map]
      have hcongr : ((features.filter fun p => decide (0 < p.2)).map
            ((fun it => it.attribution) ∘ (fun p =>
              ExplanationItem.mk p.1 ((feature_descriptions.lookup p.1).getD p.1)
                (p.2 / ((features.filter fun p => decide (0 < p.2)).map Prod.snd).sum * 100)
                ((features.lookup p.1).getD 0))))
          = ((features.filter fun p => decide (0 < p.2)).map (fun p =>
              p.2 * (100 / ((features.filter fun p => decide (0 < p.2)).map Prod.snd).sum))) := by
        apply List.map_congr_left
        intro p _
        show p.2 / _ * 100 = p.2 * _
        ring
      rw [hcongr, sum_map_snd_mul]
      field_simp
    · rw [hexp]
      have hs := @List.sorted_mergeSort ExplanationItem
        (fun (a b : ExplanationItem) => decide (b.attribution ≤ a.attribution))
        (fun a b c h1 h2 => by
          simp only [decide_eq_true_eq] at *
          exact le_trans h2 h1)
        (fun a b => by
          simp only [Bool.or_eq_true, decide_eq_true_eq]
          exact le_total b.attribution a.attribution)
        ((features.filter fun p => decide (0 < p.2)).map (fun p =>
          ExplanationItem.mk p.1 ((feature_descriptions.lookup p.1).getD p.1)
            (p.2 / ((features.filter fun p => decide (0 < p.2)).map Prod.snd).sum * 100)
            ((features.lookup p.1).getD 0)))
      exact hs.imp (fun h => of_decide_eq_true h)
  · -- no positive feature: the filter is empty and so is the result
    have hnil : features.filter (fun p => decide (0 < p.2)) = [] := by
      by_contra hne
      exact hT (List.sum_pos _ (fun x hx => by
        obtain ⟨p, hp, rfl⟩ := List.mem_map.mp hx
        have := (List.mem_filter.mp hp).2
        simpa using this) (by simpa using hne))
    have hout : explain_prediction features = [] := by
      simp only [explain_prediction]
      rw [hnil]
      simp
    rw [hout, hnil]
    exact ⟨List.Perm.refl _, trivial, Or.inl rfl, List.sorted_nil⟩

/-- Witness for C7 at a concrete two-feature mapping with duplicate-free keys. -/
theorem explain_prediction_spec_witness :
    (([("hasIPAddress", (1:ℚ)/2), ("isNotHttps", (1:ℚ)/4)].map Prod.fst).Nodup) ∧
    (((explain_prediction [("hasIPAddress", (1:ℚ)/2), ("isNotHttps", (1:ℚ)/4)]).map
        (fun it => it.feature)).Perm
        (([("hasIPAddress", (1:ℚ)/2), ("isNotHttps", (1:ℚ)/4)].filter
          fun p => decide (0 < p.2)).map Prod.fst) ∧
      (explain_prediction [("hasIPAddress", (1:ℚ)/2), ("isNotHttps", (1:ℚ)/4)]).Forall
        (fun it => (it.feature, it.value) ∈ [("hasIPAddress", (1:ℚ)/2), ("isNotHttps", (1:ℚ)/4)] ∧
          0 < it.value ∧
          it.attribution = it.value
            / (([("hasIPAddress", (1:ℚ)/2), ("isNotHttps", (1:ℚ)/4)].filter
                fun p => decide (0 < p.2)).map Prod.snd).sum * 100) ∧
      (explain_prediction [("hasIPAddress", (1:ℚ)/2), ("isNotHttps", (1:ℚ)/4)] = [] ∨
        ((explain_prediction [("hasIPAddress", (1:ℚ)/2), ("isNotHttps", (1:ℚ)/4)]).map
          (fun it => it.attribution)).sum = 100) ∧
      (explain_prediction [("hasIPAddress", (1:ℚ)/2), ("isNotHttps", (1:ℚ)/4)]).Sorted
        (fun a b => b.attribution ≤ a.attribution)) :=
  ⟨of_decide_eq_true (by with_unfolding_all rfl),
   explain_prediction_spec [("hasIPAddress", (1:ℚ)/2), ("isNotHttps", (1:ℚ)/4)]
     (of_decide_eq_true (by with_unfolding_all rfl))⟩

/-! ## Claim theorems: the google.com end-to-end scenario (C3) -/

/-- Helper for C3: the upper bound `exp (87/175) ≤ (350/263)^2` via
`exp x ≤ 1/(1 - x)` applied at `x = 87/350` and squaring. -/
theorem exp_87_175_upper : Real.exp ((87:ℝ)/175) ≤ 122500/69169 := by
  have h2 : (0:ℝ) < Real.exp ((87:ℝ)/350) := Real.exp_pos _
  have hhalf : Real.exp ((87:ℝ)/350) ≤ 350/263 := by
    have h1 := Real.add_one_le_exp (-((87:ℝ)/350))
    rw [Real.exp_neg] at h1
    have h3 : (263:ℝ)/350 ≤ (Real.exp ((87:ℝ)/350))⁻¹ := by linarith
    have h5 : Real.exp ((87:ℝ)/350) * (Real.exp ((87:ℝ)/350))⁻¹ = 1 :=
      mul_inv_cancel₀ (ne_of_gt h2)
    nlinarith
  have hsq : Real.exp ((87:ℝ)/175) = Real.exp ((87:ℝ)/350) * Real.exp ((87:ℝ)/350) := by
    rw [← Real.exp_add]
    norm_num
  rw [hsq]
  nlinarith

/-- Helper for C3: the lower bound `1 + 87/175 ≤ exp (87/175)`. -/
theorem exp_87_175_lower : (262:ℝ)/175 ≤ Real.exp ((87:ℝ)/175) := by
  have h := Real.add_one_le_exp ((87:ℝ)/175)
  linarith

/-- C3: the claim's feature assertions for `https://www.google.com` hold
(`hasIPAddress = 0`, `isNotHttps = 0`, `hasSuspiciousTLD = 0`), but the code's
verdict contradicts the claim: the brand-impersonation and
deceptive-hostname heuristics both fire at 0.9 on google.com itself (the
brand list contains "google", and ".com" occurs dot-prefixed in every .com
host), the hash proxy gives `domainAge = lowAlexaRank = 0.8`
(md5("www.google.com") mod 100 = 9), so the raw score is 251/700, three
suspicious features trigger the +0.1 bonus, and the final score
1/(1 + e^(87/175)) + 0.1 ≈ 0.478 exceeds 0.45: the verdict is
isPhishing = true with threatLevel = Medium, not false/Low as claimed. -/
theorem google_end_to_end :
    extract_from_url "https://www.google.com" =
      [("hasIPAddress", 0), ("urlLength", 0), ("hasAtSymbol", 0),
       ("hasManySubdomains", 0), ("hasSuspiciousTLD", 0),
       ("hasBrandImpersonation", 9/10), ("hasHyphens", 0),
       ("hasRedirectPattern", 0), ("hasDeceptiveHostname", 9/10),
       ("isNotHttps", 0), ("hasCertificateIssues", 0),
       ("domainAge", 4/5), ("lowAlexaRank", 4/5)] ∧
    raw_score (extract_from_url "https://www.google.com") = 251/700 ∧
    (predict (extract_from_url "https://www.google.com")).isPhishing ∧
    (predict (extract_from_url "https://www.google.com")).threatLevel
      = ThreatLevel.Medium := by
  have hfs : extract_from_url "https://www.google.com" =
      [("hasIPAddress", 0), ("urlLength", 0), ("hasAtSymbol", 0),
       ("hasManySubdomains", 0), ("hasSuspiciousTLD", 0),
       ("hasBrandImpersonation", 9/10), ("hasHyphens", 0),
       ("hasRedirectPattern", 0), ("hasDeceptiveHostname", 9/10),
       ("isNotHttps", 0), ("hasCertificateIssues", 0),
       ("domainAge", 4/5), ("lowAlexaRank", 4/5)] := by
    with_unfolding_all rfl
  have hraw : raw_score (extract_from_url "https://www.google.com") = 251/700 := by
    rw [hfs]
    with_unfolding_all rfl
  have hcnt : suspicious_count (extract_from_url "https://www.google.com") = 3 := by
    rw [hfs]
    with_unfolding_all rfl
  have harg : -12 * ((((251:ℚ)/700 : ℚ) : ℝ) - 2/5) = 87/175 := by
    push_cast
    ring_nf
  have hfinal : final_score (extract_from_url "https://www.google.com")
      = min (1/(1 + Real.exp ((87:ℝ)/175)) + 1/10) 1 := by
    unfold final_score sigmoid_score
    rw [hraw, hcnt, if_pos (by norm_num), harg]
    norm_num
  have hEpos : (0:ℝ) < Real.exp ((87:ℝ)/175) := Real.exp_pos _
  have hσlo : (7:ℝ)/20 < 1/(1 + Real.exp ((87:ℝ)/175)) := by
    rw [lt_div_iff (by linarith)]
    nlinarith [exp_87_175_upper]
  have hσhi : 1/(1 + Real.exp ((87:ℝ)/175)) < (9:ℝ)/20 := by
    rw [div_lt_iff (by linarith)]
    nlinarith [exp_87_175_lower]
  have hp : (9:ℝ)/20 < final_score (extract_from_url "https://www.google.com") := by
    rw [hfinal]
    exact lt_min (by linarith) (by norm_num)
  have hlt : final_score (extract_from_url "https://www.google.com") < 11/20 := by
    rw [hfinal]
    exact lt_of_le_of_lt (min_le_left _ _) (by linarith)
  have hge : (1:ℝ)/4 ≤ final_score (extract_from_url "https://www.google.com") := by
    rw [hfinal]
    exact le_min (by linarith) (by norm_num)
  refine ⟨hfs, hraw, hp, ?_⟩
  show get_threat_level (final_score (extract_from_url "https://www.google.com"))
    = ThreatLevel.Medium
  unfold get_threat_level
  rw [if_neg (not_lt.mpr hge), if_pos hlt]
